import Mathlib

/-!
Verification of the asynchronous insect-identification job queue
(InsectScanner backend): payload codec, queue producer options, worker
pipeline, retry state machine, status projection and ingress routes,
shallowly embedded from the TypeScript sources.
-/

set_option maxRecDepth 4000

namespace InsectScanner

/-! ## Payload codec (worker-side decode of the serialized image buffer)

The producer stores a native `Buffer` in the job data; the broker transport
JSON-serializes it, so the worker may receive either a native byte sequence
or the tagged structural form `\x7btype: 'Buffer', data: [...]\x7d`.  The wire
value is modelled as a tagged union of the JavaScript values that can reach
the worker. -/

/-- A wire-form value for the `imageBuffer` field as seen by the worker:
a native byte sequence, the tagged structural form, a plain JSON array of
numbers, a string, or any other value (plain object, null, number, boolean)
that Node's `Buffer.from` rejects with a TypeError. -/
inductive WireForm where
  | native (bytes : List Nat)
  | tagged (data : List Nat)
  | arr (data : List Nat)
  | str (s : String)
  | other
  deriving DecidableEq, Repr

/-- Node `Buffer.from` on a wire value: a native buffer is copied unchanged;
an array (tagged or plain) yields its entries truncated to bytes; a string
yields its UTF-8 bytes; anything else throws (modelled as `none`). -/
def bufferFrom : WireForm → Option (List Nat)
  | WireForm.native bs => some bs
  | WireForm.tagged ds => some (ds.map (fun d => d % 256))
  | WireForm.arr ds => some (ds.map (fun d => d % 256))
  | WireForm.str s => some (s.toUTF8.toList.map (fun b => b.toNat))
  | WireForm.other => none

/-- The worker's dual-path decode (insect.worker.ts, `actualBuffer`): if the
value is the tagged form `\x7btype: 'Buffer', data: [...]\x7d` with an array
`data`, rebuild the buffer from the `data` array; otherwise fall through to
`Buffer.from` on the value itself. -/
def decodePayload : WireForm → Option (List Nat)
  | WireForm.tagged ds => some (ds.map (fun d => d % 256))
  | w => bufferFrom w

/-- Modelled from the spec: the broker serializes a native byte sequence into
the tagged structural form when the job data crosses the wire (spec section 4.2,
"Redis stores buffers as \x7b type: 'Buffer', data: [numbers...] \x7d" in the
worker source comment). -/
def encodeForWire (bytes : List Nat) : WireForm :=
  WireForm.tagged bytes

/-- Recognizer for the native byte-sequence wire form. -/
def isNativeForm : WireForm → Bool
  | WireForm.native _ => true
  | _ => false

/-- Recognizer for the tagged structural wire form. -/
def isTaggedForm : WireForm → Bool
  | WireForm.tagged _ => true
  | _ => false

/-- Recognizer for the plain-array wire form. -/
def isArrayForm : WireForm → Bool
  | WireForm.arr _ => true
  | _ => false

/-- Recognizer for the string wire form. -/
def isStringForm : WireForm → Bool
  | WireForm.str _ => true
  | _ => false

/-- C1: decoding the wire form reconstructs the image bytes exactly: the
tagged structural form produced by serialization decodes back to the original
byte sequence, and a native byte sequence passes through unchanged. -/
theorem decode_encode_roundtrip (B : List Nat) (hB : ∀ b ∈ B, b < 256) :
    decodePayload (encodeForWire B) = some B ∧
    decodePayload (WireForm.native B) = some B := by
  constructor
  · simp only [encodeForWire, decodePayload]
    congr 1
    exact List.map_congr_left (fun b hb => Nat.mod_eq_of_lt (hB b hb)) |>.trans (List.map_id B)
  · rfl

/-- Witness for C1 at the concrete byte sequence [0, 17, 255]. -/
theorem decode_encode_roundtrip_witness :
    (∀ b ∈ [0, 17, 255], b < 256) ∧
    (decodePayload (encodeForWire [0, 17, 255]) = some [0, 17, 255] ∧
     decodePayload (WireForm.native [0, 17, 255]) = some [0, 17, 255]) :=
  ⟨by decide, decode_encode_roundtrip [0, 17, 255] (by decide)⟩

/-- C6 counterexample: the wire form `[1, 2, 3]` (a plain array of byte
values) is neither a native byte sequence nor the tagged form, yet decode
silently produces a byte sequence instead of failing. -/
theorem decode_plain_array_counterexample :
    isNativeForm (WireForm.arr [1, 2, 3]) = false ∧
    isTaggedForm (WireForm.arr [1, 2, 3]) = false ∧
    decodePayload (WireForm.arr [1, 2, 3]) = some [1, 2, 3] := by
  decide

/-- C6 amended: decode fails only on wire forms that the native byte-sequence
constructor itself rejects: a value that is not a native byte sequence, not
the tagged form, not a plain array of numbers, and not a string makes decode
fail rather than silently produce a byte sequence. -/
theorem decode_fails_on_unconvertible (w : WireForm)
    (h1 : isNativeForm w = false) (h2 : isTaggedForm w = false)
    (h3 : isArrayForm w = false) (h4 : isStringForm w = false) :
    decodePayload w = none := by
  cases w <;> simp_all [isNativeForm, isTaggedForm, isArrayForm, isStringForm,
    decodePayload, bufferFrom]

/-- Witness for the amended C6 at the concrete unconvertible wire value. -/
theorem decode_fails_on_unconvertible_witness :
    (isNativeForm WireForm.other = false ∧ isTaggedForm WireForm.other = false ∧
     isArrayForm WireForm.other = false ∧ isStringForm WireForm.other = false) ∧
    decodePayload WireForm.other = none :=
  ⟨by decide, decode_fails_on_unconvertible WireForm.other rfl rfl rfl rfl⟩

/-! ## Queue producer options (insect.queue.ts, `defaultJobOptions`) -/

/-- Retention settings for a terminal class of jobs (BullMQ `KeepJobs`):
`age` in seconds and/or a `count` of most recent jobs to keep. -/
structure KeepJobs where
  age : Option Nat
  count : Option Nat
  deriving DecidableEq, Repr

/-- Backoff settings attached to the queue (`backoff` in the source). -/
structure BackoffSettings where
  type : String
  delay : Nat
  deriving DecidableEq, Repr

/-- The job options attached at enqueue time. -/
structure JobOptions where
  attempts : Nat
  backoff : BackoffSettings
  removeOnComplete : KeepJobs
  removeOnFail : KeepJobs
  deriving DecidableEq, Repr

/-- The queue's `defaultJobOptions` exactly as configured in the source:
3 attempts, exponential backoff with base delay 2000 ms, completed jobs kept
for 3600 s or the last 100, failed jobs kept for 86400 s. -/
def defaultJobOptions : JobOptions :=
  { attempts := 3
    backoff := { type := "exponential", delay := 2000 }
    removeOnComplete := { age := some 3600, count := some 100 }
    removeOnFail := { age := some 86400, count := none } }

/-- Modelled from the spec: the broker's built-in exponential backoff gives
the delay before retry following the n-th failed attempt as
`delay * 2 ^ (n - 1)` milliseconds. -/
def backoffDelay (o : JobOptions) (n : Nat) : Nat :=
  if o.backoff.type = "exponential" then o.backoff.delay * 2 ^ (n - 1)
  else o.backoff.delay

/-- Modelled from the spec: broker retention semantics for a `KeepJobs`
policy: a terminal job finished at `finishedOn` is eligible for removal at
time `now` when it is older than `age` seconds, or when at least `count`
jobs of the same terminal class finished after it (so the oldest are evicted
first once the count bound is exceeded). -/
def keepEligible (k : KeepJobs) (finishedOn now newerTerminal : Nat) : Bool :=
  (match k.age with
   | some a => decide (finishedOn + a ≤ now)
   | none => false) ||
  (match k.count with
   | some c => decide (c ≤ newerTerminal)
   | none => false)

/-! ## Job lifecycle state machine

The envelope record mirrors the broker job fields read by the status reader
(`state`, `progress`, `returnvalue`, `failedReason`, `timestamp`,
`processedOn`, `finishedOn`).  Transitions are modelled from the spec's
state machine (section 4.3), driven by the retry options configured in the
source. -/

/-- The job data enqueued by the producer (insect.queue.ts,
`InsectIdentificationJobData`). -/
structure InsectIdentificationJobData where
  imageBuffer : WireForm
  imageMimetype : String
  imageOriginalName : String
  userId : Option String
  deriving DecidableEq, Repr

/-- Lifecycle states of an envelope. -/
inductive JobState where
  | waiting
  | active
  | delayed
  | completed
  | failed
  deriving DecidableEq, Repr

/-- A broker job record: lifecycle state plus the fields the status reader
projects. -/
structure BrokerJob where
  state : JobState
  attemptsMade : Nat
  progress : Nat
  returnvalue : Option Nat
  failedReason : Option String
  timestamp : Nat
  processedOn : Option Nat
  finishedOn : Option Nat
  data : InsectIdentificationJobData
  deriving DecidableEq, Repr

/-- A freshly enqueued job: waiting, no attempts, no result, no failure. -/
def freshJob (d : InsectIdentificationJobData) (t : Nat) : BrokerJob :=
  { state := JobState.waiting
    attemptsMade := 0
    progress := 0
    returnvalue := none
    failedReason := none
    timestamp := t
    processedOn := none
    finishedOn := none
    data := d }

/-- Lifecycle events: a worker claims the job, reports progress, completes
with a result, fails an attempt with an error message, or the backoff
interval elapses. -/
inductive JobEvent where
  | claim (t : Nat)
  | reportProgress (p : Nat)
  | complete (r : Nat) (t : Nat)
  | fail (msg : String) (t : Nat)
  | backoffDone
  deriving DecidableEq, Repr

/-- Modelled from the spec: one lifecycle transition (section 4.3).  A claim
moves a waiting job to active, incrementing `attemptsMade` and resetting
progress; completion populates the result; a failed attempt re-enters the
backoff path while attempts remain and otherwise terminally fails the job,
populating `failedReason`; events not enabled in the current state leave the
job unchanged. -/
def step (o : JobOptions) (e : BrokerJob) : JobEvent → BrokerJob
  | JobEvent.claim t =>
    match e.state with
    | JobState.waiting =>
      { e with state := JobState.active, attemptsMade := e.attemptsMade + 1,
               progress := 0, processedOn := some t }
    | _ => e
  | JobEvent.reportProgress p =>
    match e.state with
    | JobState.active => { e with progress := p }
    | _ => e
  | JobEvent.complete r t =>
    match e.state with
    | JobState.active =>
      { e with state := JobState.completed, returnvalue := some r,
               finishedOn := some t }
    | _ => e
  | JobEvent.fail msg t =>
    match e.state with
    | JobState.active =>
      if e.attemptsMade < o.attempts then { e with state := JobState.delayed }
      else { e with state := JobState.failed, failedReason := some msg,
                    finishedOn := some t }
    | _ => e
  | JobEvent.backoffDone =>
    match e.state with
    | JobState.delayed => { e with state := JobState.waiting }
    | _ => e

/-- Run a sequence of lifecycle events from a starting job record. -/
def runEvents (o : JobOptions) (e : BrokerJob) (evs : List JobEvent) : BrokerJob :=
  evs.foldl (step o) e

/-- One claim-fail-backoff round of an always-failing job. -/
def failRound : List JobEvent :=
  [JobEvent.claim 0, JobEvent.fail "boom" 0, JobEvent.backoffDone]

/-- `n` rounds of an always-failing job. -/
def failTrace : Nat → List JobEvent
  | 0 => []
  | n + 1 => failTrace n ++ failRound

/-- A terminally failed job absorbs every further event. -/
lemma step_of_failed (o : JobOptions) (e : BrokerJob) (ev : JobEvent)
    (hv : e.state = JobState.failed) : step o e ev = e := by
  cases ev <;> simp [step, hv]

/-- A terminally failed job is unchanged by any further event sequence. -/
lemma runEvents_of_failed (o : JobOptions) (e : BrokerJob) (evs : List JobEvent)
    (hv : e.state = JobState.failed) : runEvents o e evs = e := by
  induction evs with
  | nil => rfl
  | cons ev evs ih =>
    show runEvents o (step o e ev) evs = e
    rw [step_of_failed o e ev hv, ih]

/-- Running three failing rounds, and any number of further rounds, from a
fresh job under the configured options yields the terminally failed record
with exactly three attempts made. -/
lemma alwaysFailing_run (d : InsectIdentificationJobData) (extra : Nat) :
    runEvents defaultJobOptions (freshJob d 0) (failTrace (3 + extra)) =
    { state := JobState.failed, attemptsMade := 3, progress := 0,
      returnvalue := none, failedReason := some "boom", timestamp := 0,
      processedOn := some 0, finishedOn := some 0, data := d } := by
  induction extra with
  | zero => rfl
  | succ k ih =>
    have h : failTrace (3 + (k + 1)) = failTrace (3 + k) ++ failRound := rfl
    rw [h, runEvents, List.foldl_append, ← runEvents, ← runEvents, ih]
    exact runEvents_of_failed _ _ _ rfl

/-- C2: a job whose pipeline fails on every attempt reaches the terminal
FAILED state with exactly 3 execution attempts, and stays there no matter how
many further rounds occur; and the configured backoff delay before retry
attempt n+1 is exponential from 2000 ms: attempt n backoff is
2000 * 2^(n-1) ms. -/
theorem retry_policy_three_attempts :
    (∀ (d : InsectIdentificationJobData) (extra : Nat),
      (runEvents defaultJobOptions (freshJob d 0) (failTrace (3 + extra))).state
        = JobState.failed ∧
      (runEvents defaultJobOptions (freshJob d 0) (failTrace (3 + extra))).attemptsMade
        = 3) ∧
    (∀ n : Nat, backoffDelay defaultJobOptions n = 2000 * 2 ^ (n - 1)) := by
  constructor
  · intro d extra
    rw [alwaysFailing_run]
    exact ⟨rfl, rfl⟩
  · intro n
    rfl

/-! ## Status reader (insect.queue.ts, `getJobStatus`) -/

/-- The client-facing status projection returned by `getJobStatus`: the job
id, lifecycle state, progress, return value, failure reason and the three
timestamps. -/
structure JobStatusView where
  id : String
  state : JobState
  progress : Nat
  result : Option Nat
  failedReason : Option String
  createdAt : Nat
  processedAt : Option Nat
  finishedAt : Option Nat
  deriving DecidableEq, Repr

/-- The broker's job store, keyed by job id. -/
def JobStore : Type := String → Option BrokerJob

/-- A store holding exactly one job. -/
def singleStore (key : String) (e : BrokerJob) : JobStore :=
  fun j => if j = key then some e else none

/-- The empty store: no job was ever issued (or all were evicted). -/
def emptyStore : JobStore := fun _ => none

/-- The status reader (`getJobStatus` in the source): looks the job up in
the queue, returns nothing when it does not exist, and otherwise projects
id, state, progress, return value, failure reason and timestamps. -/
def getJobStatus (store : JobStore) (jobId : String) : Option JobStatusView :=
  match store jobId with
  | none => none
  | some job =>
    some { id := jobId
           state := job.state
           progress := job.progress
           result := job.returnvalue
           failedReason := job.failedReason
           createdAt := job.timestamp
           processedAt := job.processedOn
           finishedAt := job.finishedOn }

/-! ## Terminal exclusivity invariant (C3) -/

/-- Exactly one of result/failureReason is populated in a terminal state,
and neither is populated in a non-terminal state. -/
def TerminalExclusive (e : BrokerJob) : Prop :=
  (e.state = JobState.completed →
    e.returnvalue.isSome = true ∧ e.failedReason = none) ∧
  (e.state = JobState.failed →
    e.failedReason.isSome = true ∧ e.returnvalue = none) ∧
  (e.state ≠ JobState.completed → e.state ≠ JobState.failed →
    e.returnvalue = none ∧ e.failedReason = none)

/-- Every lifecycle transition preserves terminal exclusivity. -/
lemma step_terminal_exclusive (o : JobOptions) (e : BrokerJob) (ev : JobEvent)
    (h : TerminalExclusive e) : TerminalExclusive (step o e ev) := by
  obtain ⟨h1, h2, h3⟩ := h
  cases ev with
  | claim t =>
    cases he : e.state with
    | waiting =>
      have hn := h3 (by simp [he]) (by simp [he])
      simp [TerminalExclusive, step, he, hn.1, hn.2]
    | _ => simpa [step, he] using ⟨h1, h2, h3⟩
  | reportProgress p =>
    cases he : e.state with
    | active =>
      have hn := h3 (by simp [he]) (by simp [he])
      simp [TerminalExclusive, step, he, hn.1, hn.2]
    | _ => simpa [step, he] using ⟨h1, h2, h3⟩
  | complete r t =>
    cases he : e.state with
    | active =>
      have hn := h3 (by simp [he]) (by simp [he])
      simp [TerminalExclusive, step, he, hn.1, hn.2]
    | _ => simpa [step, he] using ⟨h1, h2, h3⟩
  | fail msg t =>
    cases he : e.state with
    | active =>
      have hn := h3 (by simp [he]) (by simp [he])
      by_cases ha : e.attemptsMade < o.attempts <;>
        simp [TerminalExclusive, step, he, ha, hn.1, hn.2]
    | _ => simpa [step, he] using ⟨h1, h2, h3⟩
  | backoffDone =>
    cases he : e.state with
    | delayed =>
      have hn := h3 (by simp [he]) (by simp [he])
      simp [TerminalExclusive, step, he, hn.1, hn.2]
    | _ => simpa [step, he] using ⟨h1, h2, h3⟩

/-- Terminal exclusivity holds after any event sequence from an initial
state satisfying it. -/
lemma runEvents_terminal_exclusive (o : JobOptions) (e : BrokerJob)
    (evs : List JobEvent) (h : TerminalExclusive e) :
    TerminalExclusive (runEvents o e evs) := by
  induction evs generalizing e with
  | nil => exact h
  | cons ev evs ih => exact ih _ (step_terminal_exclusive o e ev h)

/-- A fresh job satisfies terminal exclusivity. -/
lemma freshJob_terminal_exclusive (d : InsectIdentificationJobData) (t : Nat) :
    TerminalExclusive (freshJob d t) := by
  refine ⟨?_, ?_, ?_⟩ <;> simp [freshJob]

/-- C3: in the status projection of any job reachable from enqueue under the
configured options, a completed job has its result populated and no failure
reason, a failed job has its failure reason populated and no result, and a
job in any non-terminal state has neither populated. -/
theorem terminal_exclusivity_projection
    (d : InsectIdentificationJobData) (t0 : Nat) (evs : List JobEvent)
    (jobId : String) (v : JobStatusView)
    (h : getJobStatus
          (singleStore jobId (runEvents defaultJobOptions (freshJob d t0) evs))
          jobId = some v) :
    (v.state = JobState.completed →
      v.result.isSome = true ∧ v.failedReason = none) ∧
    (v.state = JobState.failed →
      v.failedReason.isSome = true ∧ v.result = none) ∧
    (v.state ≠ JobState.completed → v.state ≠ JobState.failed →
      v.result = none ∧ v.failedReason = none) := by
  have hinv := runEvents_terminal_exclusive defaultJobOptions (freshJob d t0)
    evs (freshJob_terminal_exclusive d t0)
  simp [getJobStatus, singleStore] at h
  subst h
  exact hinv

/-- Witness for C3: a job claimed, progressed to 100 and completed yields a
completed projection with a result and no failure reason. -/
theorem terminal_exclusivity_projection_witness :
    (getJobStatus
      (singleStore "j"
        (runEvents defaultJobOptions
          (freshJob ⟨WireForm.native [1], "image/png", "a.png", none⟩ 0)
          [JobEvent.claim 1, JobEvent.reportProgress 100, JobEvent.complete 7 2]))
      "j" = some ⟨"j", JobState.completed, 100, some 7, none, 0, some 1, some 2⟩) ∧
    ((JobStatusView.state ⟨"j", JobState.completed, 100, some 7, none, 0, some 1, some 2⟩
        = JobState.completed →
      (JobStatusView.result ⟨"j", JobState.completed, 100, some 7, none, 0, some 1, some 2⟩).isSome
          = true ∧
      JobStatusView.failedReason ⟨"j", JobState.completed, 100, some 7, none, 0, some 1, some 2⟩
          = none) ∧
     (JobStatusView.state ⟨"j", JobState.completed, 100, some 7, none, 0, some 1, some 2⟩
        = JobState.failed →
      (JobStatusView.failedReason ⟨"j", JobState.completed, 100, some 7, none, 0, some 1, some 2⟩).isSome
          = true ∧
      JobStatusView.result ⟨"j", JobState.completed, 100, some 7, none, 0, some 1, some 2⟩
          = none) ∧
     (JobStatusView.state ⟨"j", JobState.completed, 100, some 7, none, 0, some 1, some 2⟩
        ≠ JobState.completed →
      JobStatusView.state ⟨"j", JobState.completed, 100, some 7, none, 0, some 1, some 2⟩
        ≠ JobState.failed →
      JobStatusView.result ⟨"j", JobState.completed, 100, some 7, none, 0, some 1, some 2⟩
          = none ∧
      JobStatusView.failedReason ⟨"j", JobState.completed, 100, some 7, none, 0, some 1, some 2⟩
          = none)) :=
  ⟨by decide, terminal_exclusivity_projection
    ⟨WireForm.native [1], "image/png", "a.png", none⟩ 0
    [JobEvent.claim 1, JobEvent.reportProgress 100, JobEvent.complete 7 2]
    "j" ⟨"j", JobState.completed, 100, some 7, none, 0, some 1, some 2⟩ (by decide)⟩

/-! ## Queue producer (insect.queue.ts, `addInsectIdentificationJob`) and
ingress routes (insect.routes.ts) -/

/-- The external broker: whether it is reachable, and the association list
of recorded job envelopes. -/
structure Broker where
  reachable : Bool
  jobs : List (String × BrokerJob)
  deriving Repr

/-- The enqueue-time error class. -/
inductive QueueError where
  | queueUnavailable
  deriving DecidableEq, Repr

/-- The broker's `add` primitive: when reachable, durably records a fresh
envelope under the given id and returns the id; when unreachable, fails with
`queueUnavailable` and records nothing. -/
def queueAdd (b : Broker) (jobId : String) (d : InsectIdentificationJobData)
    (t : Nat) : Broker × Except QueueError String :=
  if b.reachable then
    ({ b with jobs := (jobId, freshJob d t) :: b.jobs }, Except.ok jobId)
  else
    (b, Except.error QueueError.queueUnavailable)

/-- `addInsectIdentificationJob` from the source: adds the job data to the
insect-identification queue under a generated job id and returns that id
(the id generation is time-plus-random and is passed in here as a value). -/
def addInsectIdentificationJob (b : Broker) (jobId : String)
    (d : InsectIdentificationJobData) (t : Nat) :
    Broker × Except QueueError String :=
  queueAdd b jobId d t

/-- An uploaded multipart file as produced by the memory-storage upload
middleware: the in-memory buffer plus metadata. -/
structure UploadedFile where
  buffer : List Nat
  mimetype : String
  originalname : String
  deriving DecidableEq, Repr

/-- Responses of the POST /identify route. -/
inductive IdentifyResponse where
  | badRequest400 (error : String)
  | accepted202 (jobId : String)
  | serverError500 (error : String)
  deriving DecidableEq, Repr

/-- The POST /identify handler: with no uploaded file it answers 400 with
"Image file is required" before touching the queue; otherwise it builds the
job data from the file and optional user id, enqueues it, and answers 202
with the job id, or 500 when enqueueing fails. -/
def identifyRoute (b : Broker) (file : Option UploadedFile)
    (userId : Option String) (jobId : String) (t : Nat) :
    Broker × IdentifyResponse :=
  match file with
  | none => (b, IdentifyResponse.badRequest400 "Image file is required")
  | some f =>
    match addInsectIdentificationJob b jobId
        ⟨WireForm.native f.buffer, f.mimetype, f.originalname, userId⟩ t with
    | (b2, Except.ok id) => (b2, IdentifyResponse.accepted202 id)
    | (b2, Except.error _) =>
      (b2, IdentifyResponse.serverError500 "Failed to queue identification job")

/-- Responses of the GET /status/:jobId route. -/
inductive StatusResponse where
  | notFound404 (error : String)
  | ok200 (data : JobStatusView)
  deriving DecidableEq, Repr

/-- The GET /status/:jobId handler: answers 404 with "Job not found" when
the status reader finds no job, and 200 with the projection otherwise. -/
def statusRoute (store : JobStore) (jobId : String) : StatusResponse :=
  match getJobStatus store jobId with
  | none => StatusResponse.notFound404 "Job not found"
  | some v => StatusResponse.ok200 v

/-- C4: a job id with no envelope — never issued or already evicted, the two
being indistinguishable because only absence from the store is observable —
yields NOT_FOUND (404, "Job not found") rather than an error, and an
existing envelope yields exactly the projection of id, state, progress,
result, failure reason and the three timestamps. -/
theorem status_not_found_and_projection (store : JobStore) (jobId : String) :
    (store jobId = none →
      getJobStatus store jobId = none ∧
      statusRoute store jobId = StatusResponse.notFound404 "Job not found" ∧
      (∀ store2 : JobStore, store2 jobId = none →
        statusRoute store jobId = statusRoute store2 jobId)) ∧
    (∀ job : BrokerJob, store jobId = some job →
      getJobStatus store jobId =
        some { id := jobId, state := job.state, progress := job.progress,
               result := job.returnvalue, failedReason := job.failedReason,
               createdAt := job.timestamp, processedAt := job.processedOn,
               finishedAt := job.finishedOn }) := by
  constructor
  · intro h
    refine ⟨by simp [getJobStatus, h], by simp [statusRoute, getJobStatus, h], ?_⟩
    intro store2 h2
    simp [statusRoute, getJobStatus, h, h2]
  · intro job h
    simp [getJobStatus, h]

/-- Witness for C4 at the never-issued id "nonexistent-123" on the empty
store and at an existing completed envelope. -/
theorem status_not_found_and_projection_witness :
    ((emptyStore "nonexistent-123" = none →
      getJobStatus emptyStore "nonexistent-123" = none ∧
      statusRoute emptyStore "nonexistent-123"
        = StatusResponse.notFound404 "Job not found" ∧
      (∀ store2 : JobStore, store2 "nonexistent-123" = none →
        statusRoute emptyStore "nonexistent-123" = statusRoute store2 "nonexistent-123")) ∧
    (∀ job : BrokerJob, emptyStore "nonexistent-123" = some job →
      getJobStatus emptyStore "nonexistent-123" =
        some { id := "nonexistent-123", state := job.state, progress := job.progress,
               result := job.returnvalue, failedReason := job.failedReason,
               createdAt := job.timestamp, processedAt := job.processedOn,
               finishedAt := job.finishedOn })) ∧
    emptyStore "nonexistent-123" = none :=
  ⟨status_not_found_and_projection emptyStore "nonexistent-123", rfl⟩

/-- C8: when the broker is unreachable, enqueueing fails with
QueueUnavailable, no job id is returned, and the broker's job store is
unchanged; when the broker is reachable, the envelope is recorded — in the
initial WAITING state, not yet executed — before the assigned job id is
returned. -/
theorem enqueue_unavailable_or_durable (b : Broker) (jobId : String)
    (d : InsectIdentificationJobData) (t : Nat) :
    (b.reachable = false →
      addInsectIdentificationJob b jobId d t
        = (b, Except.error QueueError.queueUnavailable)) ∧
    (b.reachable = true →
      (addInsectIdentificationJob b jobId d t).2 = Except.ok jobId ∧
      (addInsectIdentificationJob b jobId d t).1.jobs.lookup jobId
        = some (freshJob d t) ∧
      (freshJob d t).state = JobState.waiting ∧
      (freshJob d t).returnvalue = none) := by
  constructor
  · intro h
    simp [addInsectIdentificationJob, queueAdd, h]
  · intro h
    refine ⟨?_, ?_, rfl, rfl⟩
    · simp [addInsectIdentificationJob, queueAdd, h]
    · simp [addInsectIdentificationJob, queueAdd, h, List.lookup]

/-- Witness for C8 at a concrete unreachable broker and a concrete reachable
broker. -/
theorem enqueue_unavailable_or_durable_witness :
    (addInsectIdentificationJob ⟨false, []⟩ "j1"
        ⟨WireForm.native [1], "image/png", "a.png", none⟩ 0
      = (⟨false, []⟩, Except.error QueueError.queueUnavailable)) ∧
    ((addInsectIdentificationJob ⟨true, []⟩ "j1"
        ⟨WireForm.native [1], "image/png", "a.png", none⟩ 0).2 = Except.ok "j1" ∧
     (addInsectIdentificationJob ⟨true, []⟩ "j1"
        ⟨WireForm.native [1], "image/png", "a.png", none⟩ 0).1.jobs.lookup "j1"
       = some (freshJob ⟨WireForm.native [1], "image/png", "a.png", none⟩ 0) ∧
     (freshJob ⟨WireForm.native [1], "image/png", "a.png", none⟩ 0).state
       = JobState.waiting ∧
     (freshJob ⟨WireForm.native [1], "image/png", "a.png", none⟩ 0).returnvalue
       = none) :=
  ⟨(enqueue_unavailable_or_durable ⟨false, []⟩ "j1"
      ⟨WireForm.native [1], "image/png", "a.png", none⟩ 0).1 rfl,
   (enqueue_unavailable_or_durable ⟨true, []⟩ "j1"
      ⟨WireForm.native [1], "image/png", "a.png", none⟩ 0).2 rfl⟩

/-- C10: an identify request carrying no uploaded image file is answered 400
with "Image file is required", the broker is left untouched (no envelope is
created), and no job identifier is issued. -/
theorem missing_file_rejected_before_enqueue (b : Broker)
    (userId : Option String) (jobId : String) (t : Nat) :
    identifyRoute b none userId jobId t
      = (b, IdentifyResponse.badRequest400 "Image file is required") := by
  rfl

/-! ## Worker pipeline (insect.worker.ts, processor body) -/

/-- Observable pipeline events of one execution attempt: a progress report,
the payload-decode step, and the external classification call. -/
inductive WEvent where
  | reportProgress (p : Nat)
  | decodeStep
  | classifyStep
  deriving DecidableEq, BEq, Repr

/-- One execution attempt of the worker processor, as the ordered event
trace it produces together with its returned result: it first reports
progress 10, then attempts the payload decode (failing the attempt when the
decode fails), then reports progress 30, invokes classification, reports
progress 100 and returns the classification result. -/
def processAttempt (w : WireForm) (classified : Nat) :
    List WEvent × Option Nat :=
  match decodePayload w with
  | none => ([WEvent.reportProgress 10, WEvent.decodeStep], none)
  | some _ =>
    ([WEvent.reportProgress 10, WEvent.decodeStep, WEvent.reportProgress 30,
      WEvent.classifyStep, WEvent.reportProgress 100], some classified)

/-- The lifecycle events the worker issues against the broker job during one
attempt: progress 10, then on successful decode progress 30, progress 100
and completion with the result, and on decode failure a failed attempt. -/
def attemptJobEvents (w : WireForm) (r t : Nat) : List JobEvent :=
  match decodePayload w with
  | none => [JobEvent.reportProgress 10, JobEvent.fail "decode failure" t]
  | some _ =>
    [JobEvent.reportProgress 10, JobEvent.reportProgress 30,
     JobEvent.reportProgress 100, JobEvent.complete r t]

/-- C5 counterexample: on a concrete native-buffer payload the worker's
trace reports progress 10 strictly before performing the payload decode, so
the pipeline is not executed in the claimed order (decode first, then
progress 10). -/
theorem pipeline_order_counterexample :
    (processAttempt (WireForm.native [1]) 7).1
      = [WEvent.reportProgress 10, WEvent.decodeStep, WEvent.reportProgress 30,
         WEvent.classifyStep, WEvent.reportProgress 100] ∧
    List.findIdx (fun e => e == WEvent.reportProgress 10)
        (processAttempt (WireForm.native [1]) 7).1
      < List.findIdx (fun e => e == WEvent.decodeStep)
        (processAttempt (WireForm.native [1]) 7).1 := by
  decide

/-- C5 amended: per claimed envelope whose payload decodes, the worker
executes the fixed pipeline in this order: report progress 10, then decode
the payload, then (after reporting progress 30) invoke the external
classification capability, then report progress 100 on success; on success
the job finishes COMPLETED with progress 100 and the result populated. -/
theorem worker_pipeline_order (w : WireForm) (bytes : List Nat)
    (r tClaim tDone : Nat) (d : InsectIdentificationJobData) (t0 : Nat)
    (h : decodePayload w = some bytes) :
    (processAttempt w r).1
      = [WEvent.reportProgress 10, WEvent.decodeStep, WEvent.reportProgress 30,
         WEvent.classifyStep, WEvent.reportProgress 100] ∧
    (processAttempt w r).2 = some r ∧
    (runEvents defaultJobOptions (freshJob d t0)
        (JobEvent.claim tClaim :: attemptJobEvents w r tDone)).state
      = JobState.completed ∧
    (runEvents defaultJobOptions (freshJob d t0)
        (JobEvent.claim tClaim :: attemptJobEvents w r tDone)).progress = 100 ∧
    (runEvents defaultJobOptions (freshJob d t0)
        (JobEvent.claim tClaim :: attemptJobEvents w r tDone)).returnvalue
      = some r := by
  refine ⟨?_, ?_, ?_, ?_, ?_⟩ <;>
    simp [processAttempt, attemptJobEvents, h, runEvents, List.foldl, step, freshJob]

/-- Witness for the amended C5 at a concrete tagged payload. -/
theorem worker_pipeline_order_witness :
    decodePayload (WireForm.tagged [5]) = some [5] ∧
    ((processAttempt (WireForm.tagged [5]) 7).1
      = [WEvent.reportProgress 10, WEvent.decodeStep, WEvent.reportProgress 30,
         WEvent.classifyStep, WEvent.reportProgress 100] ∧
    (processAttempt (WireForm.tagged [5]) 7).2 = some 7 ∧
    (runEvents defaultJobOptions
        (freshJob ⟨WireForm.tagged [5], "image/png", "a.png", none⟩ 0)
        (JobEvent.claim 1 :: attemptJobEvents (WireForm.tagged [5]) 7 2)).state
      = JobState.completed ∧
    (runEvents defaultJobOptions
        (freshJob ⟨WireForm.tagged [5], "image/png", "a.png", none⟩ 0)
        (JobEvent.claim 1 :: attemptJobEvents (WireForm.tagged [5]) 7 2)).progress
      = 100 ∧
    (runEvents defaultJobOptions
        (freshJob ⟨WireForm.tagged [5], "image/png", "a.png", none⟩ 0)
        (JobEvent.claim 1 :: attemptJobEvents (WireForm.tagged [5]) 7 2)).returnvalue
      = some 7) :=
  ⟨by decide, worker_pipeline_order (WireForm.tagged [5]) [5] 7 1 2
    ⟨WireForm.tagged [5], "image/png", "a.png", none⟩ 0 (by decide)⟩

/-- C9: the retention policy attached at enqueue time makes a completed
envelope eligible for removal exactly when it is older than 3600 seconds or
at least 100 completed envelopes finished after it (so with more than 100
completed envelopes the oldest become eligible first), and makes a failed
envelope eligible exactly when it is older than 86400 seconds. -/
theorem retention_policy_characterization (f now newer : Nat) :
    (keepEligible defaultJobOptions.removeOnComplete f now newer = true ↔
      (f + 3600 ≤ now ∨ 100 ≤ newer)) ∧
    (keepEligible defaultJobOptions.removeOnFail f now newer = true ↔
      f + 86400 ≤ now) := by
  constructor <;> simp [keepEligible, defaultJobOptions]

/-! ## Worker pool bounds (insect.worker.ts, worker options) -/

/-- The worker-pool options configured on the worker in the source:
concurrency 5 and a limiter of at most 10 claims per 1000 ms. -/
structure WorkerOptions where
  concurrency : Nat
  limiterMax : Nat
  limiterDur : Nat
  deriving DecidableEq, Repr

/-- The options of the insect-identification worker exactly as configured in
the source. -/
def insectWorkerOptions : WorkerOptions :=
  { concurrency := 5, limiterMax := 10, limiterDur := 1000 }

/-- The observable state of one worker pool: the number of currently active
envelopes and the grant times of all claims so far. -/
structure PoolState where
  active : Nat
  claims : List Nat
  deriving DecidableEq, Repr

/-- The pool before any claim. -/
def initialPool : PoolState := { active := 0, claims := [] }

/-- The number of claims granted in the rolling window of length `dur`
ending at time `t`. -/
def windowCount (claims : List Nat) (dur t : Nat) : Nat :=
  (claims.filter (fun s => s ≤ t && t < s + dur)).length

/-- Pool events: a claim is requested at time `t`, or an active envelope
finishes. -/
inductive PoolEvent where
  | claim (t : Nat)
  | finish
  deriving DecidableEq, Repr

/-- Modelled from the spec: the broker grants a claim requested at time `t`
only while fewer than `concurrency` envelopes are active and fewer than
`limiterMax` claims were granted in the trailing `limiterDur` window (time
never runs backwards, so a claim is granted only at or after all earlier
grants); an envelope finishing releases its slot. -/
def poolStep (o : WorkerOptions) (st : PoolState) : PoolEvent → PoolState
  | PoolEvent.claim t =>
    if st.active < o.concurrency ∧
        windowCount st.claims o.limiterDur t < o.limiterMax ∧
        (∀ s ∈ st.claims, s ≤ t) then
      { active := st.active + 1, claims := t :: st.claims }
    else st
  | PoolEvent.finish => { st with active := st.active - 1 }

/-- Run a sequence of pool events from the initial pool state. -/
def poolRun (o : WorkerOptions) (events : List PoolEvent) : PoolState :=
  events.foldl (poolStep o) initialPool

/-- Filtering with a weaker predicate keeps at least as many elements. -/
lemma length_filter_mono {l : List Nat} {p q : Nat → Bool}
    (h : ∀ x ∈ l, p x = true → q x = true) :
    (l.filter p).length ≤ (l.filter q).length := by
  induction l with
  | nil => simp
  | cons a l ih =>
    have ih2 := ih (fun x hx hp => h x (List.mem_cons_of_mem a hx) hp)
    by_cases hp : p a = true
    · have hq := h a (List.mem_cons_self a l) hp
      simp only [List.filter_cons, hp, hq, if_true, List.length_cons]
      exact Nat.succ_le_succ ih2
    · have hp2 : p a = false := by simpa using hp
      by_cases hq : q a = true
      · simp only [List.filter_cons, hp2, hq, if_true, Bool.false_eq_true,
          if_false, List.length_cons]
        exact Nat.le_trans ih2 (Nat.le_succ _)
      · have hq2 : q a = false := by simpa using hq
        simp only [List.filter_cons, hp2, hq2, Bool.false_eq_true, if_false]
        exact ih2

/-- When every recorded claim is at or before `t`, a window ending at a
later time `u` contains no more claims than the window ending at `t`. -/
lemma windowCount_mono (claims : List Nat) (dur t u : Nat)
    (hall : ∀ s ∈ claims, s ≤ t) (htu : t ≤ u) :
    windowCount claims dur u ≤ windowCount claims dur t := by
  apply length_filter_mono
  intro s hs hsu
  simp only [Bool.and_eq_true, decide_eq_true_eq] at hsu ⊢
  exact ⟨hall s hs, Nat.lt_of_le_of_lt htu hsu.2⟩

/-- The pool invariant: active envelopes within the concurrency bound and
every rolling window within the limiter bound. -/
def PoolInv (o : WorkerOptions) (st : PoolState) : Prop :=
  st.active ≤ o.concurrency ∧
  ∀ u, windowCount st.claims o.limiterDur u ≤ o.limiterMax

/-- Each pool event preserves the pool invariant. -/
lemma poolStep_inv (o : WorkerOptions) (st : PoolState) (ev : PoolEvent)
    (h : PoolInv o st) : PoolInv o (poolStep o st ev) := by
  obtain ⟨h1, h2⟩ := h
  cases ev with
  | finish => exact ⟨Nat.le_trans (Nat.sub_le _ _) h1, h2⟩
  | claim t =>
    by_cases hg : st.active < o.concurrency ∧
        windowCount st.claims o.limiterDur t < o.limiterMax ∧
        (∀ s ∈ st.claims, s ≤ t)
    · obtain ⟨hg1, hg2, hg3⟩ := hg
      rw [show poolStep o st (PoolEvent.claim t)
            = { active := st.active + 1, claims := t :: st.claims } from
          if_pos ⟨hg1, hg2, hg3⟩]
      refine ⟨hg1, ?_⟩
      intro u
      unfold windowCount
      rw [List.filter_cons]
      by_cases hc : (t ≤ u && u < t + o.limiterDur) = true
      · rw [if_pos hc]
        have htu : t ≤ u := by
          simp only [Bool.and_eq_true, decide_eq_true_eq] at hc
          exact hc.1
        have hmono := windowCount_mono st.claims o.limiterDur t u hg3 htu
        simp only [List.length_cons]
        have : windowCount st.claims o.limiterDur u + 1
            ≤ windowCount st.claims o.limiterDur t + 1 :=
          Nat.succ_le_succ hmono
        exact Nat.le_trans this (Nat.succ_le_of_lt hg2)
      · rw [if_neg hc]
        exact h2 u
    · rw [show poolStep o st (PoolEvent.claim t) = st from if_neg hg]
      exact ⟨h1, h2⟩

/-- The pool invariant holds along any event sequence. -/
lemma poolFold_inv (o : WorkerOptions) (events : List PoolEvent) :
    ∀ st, PoolInv o st → PoolInv o (events.foldl (poolStep o) st) := by
  induction events with
  | nil => exact fun st h => h
  | cons ev events ih =>
    exact fun st h => ih (poolStep o st ev) (poolStep_inv o st ev h)

/-- C7: under the configured worker options, after any sequence of claim and
finish events, at most 5 envelopes are active, and at most 10 claims were
granted in any rolling 1-second window, the rate bound holding whatever the
active count did. -/
theorem pool_concurrency_and_rate_bounds (events : List PoolEvent) :
    (poolRun insectWorkerOptions events).active ≤ 5 ∧
    ∀ u, windowCount (poolRun insectWorkerOptions events).claims 1000 u ≤ 10 := by
  have h0 : PoolInv insectWorkerOptions initialPool := by
    refine ⟨Nat.zero_le _, ?_⟩
    intro u
    simp [windowCount, initialPool, insectWorkerOptions]
  exact poolFold_inv insectWorkerOptions events initialPool h0

end InsectScanner
